import Mathlib

/-!
The program `src/pool.go` (package gopool): an elastic goroutine pool.

The pool is a concurrent program: client goroutines call `Execute` and `Wait`,
worker goroutines run `pool.worker`.  The embedding is a labelled transition
system.  A `State` holds the fields of the `pool` struct (`taskQ`, `wg`), the two
package variables (`RequestTimeout`, `IdleTimeout`), a logical clock, and the
program counter of every goroutine that is inside a function of `pool.go`.
An `Event` is one atomic action of one goroutine; `step` performs it and returns
`none` when the goroutine cannot take that action in the given state (it is
blocked, or not at that program point).  An interleaving is a list of events.

Library semantics used (Go language specification and package `sync`):
* an unbuffered channel send completes only together with a receive;
* a send on a closed channel and a close of a closed channel panic;
* a receive from a closed, empty channel yields `ok = false` at once;
* `time.After(d)` delivers once at least `d` has elapsed (at once for `d ≤ 0`);
* deferred calls run when the function returns and while a panic unwinds;
* a panic that reaches the top of a goroutine terminates the program.
-/

namespace Gopool

/-- The type `Task` is `func()` in the source: an opaque value, identified here by a number. -/
abbrev Task := Nat

/-- A Go channel of tasks: `cap` is the capacity given to `make`, `buf` the values
buffered (each tagged with the index of the `Execute` call that sent it), `closed`
whether `close` has run. -/
structure Chan where
  cap : Nat
  buf : List Nat
  closed : Bool
deriving DecidableEq, Repr

/-- Program points of a goroutine running `pool.worker` (lines 36-54). -/
inductive WorkerPC where
  /-- Created by `go p.worker()`; line 37 has not run yet. -/
  | start
  /-- Blocked in the `select` of line 40; the timer of line 48 fires at `deadline`. -/
  | waiting (deadline : Nat)
  /-- Inside `taskfn()` (line 47), running the task sent by call `c`. -/
  | executing (c : Nat)
  /-- Returned at line 44 or line 51; the deferred `wg.Done()` has run. -/
  | returned
  /-- A panic raised by `taskfn()` has unwound the goroutine through the deferred `wg.Done()`. -/
  | panicked
deriving DecidableEq, Repr

/-- The two methods of the `Pool` interface. -/
inductive Op where
  | execute (fn : Task)
  | wait
deriving DecidableEq, Repr

/-- Program points of a client goroutine inside `Execute` (lines 56-68) or `Wait` (lines 70-75). -/
inductive CallPC where
  /-- `Execute`: blocked in the `select` of line 57; the timer of line 61 fires at `deadline`. -/
  | select (deadline : Nat)
  /-- `Execute`: line 64 has run, blocked in the send of line 66. -/
  | send
  /-- `Wait`: about to run `close(p.taskQ)` (line 72). -/
  | close
  /-- `Wait`: blocked in `p.wg.Wait()` (line 74). -/
  | wgWait
  /-- The call returned normally. -/
  | returned
  /-- The call ended with a run-time panic propagating to its caller. -/
  | panicked
deriving DecidableEq, Repr

/-- One call of a pool method by a client goroutine. -/
structure Call where
  op : Op
  pc : CallPC
deriving DecidableEq, Repr

/-- Who performs an action: the client goroutine of call `c`, or worker goroutine `w`. -/
inductive Actor where
  | client (c : Nat)
  | worker (w : Nat)
deriving DecidableEq, Repr

/-- History of the actions the code has performed (a ghost variable, never read by `step`). -/
inductive Action where
  /-- Line 64: call `c` ran `go p.worker()`, creating worker `w`. -/
  | spawn (c w : Nat)
  /-- Line 37: worker `w` ran `p.wg.Add(1)`. -/
  | add (w : Nat)
  /-- Line 38: the deferred `p.wg.Done()` of worker `w` ran. -/
  | done (w : Nat)
  /-- The send of call `c` completed: line 58 (`blocking = false`) or line 66 (`blocking = true`). -/
  | send (c : Nat) (blocking : Bool)
  /-- Line 41: worker `w` received the task of call `c` with `ok = true`. -/
  | recv (w c : Nat)
  /-- The task of call `c` was invoked by `who` (line 47 is the only call of a task). -/
  | invoke (who : Actor) (c : Nat)
  /-- Line 47: the task of call `c` returned to worker `w`. -/
  | ret (w c : Nat)
  /-- Line 47: the task of call `c` panicked inside worker `w`. -/
  | fault (w c : Nat)
  /-- Line 72: call `c` closed the channel. -/
  | closeQ (c : Nat)
deriving DecidableEq, Repr

/-- The pool together with the goroutines that use it. -/
structure State where
  /-- Logical clock, in nanoseconds. -/
  now : Nat
  /-- Package variable of line 12 (a `time.Duration`, nanoseconds). -/
  RequestTimeout : Int
  /-- Package variable of line 15. -/
  IdleTimeout : Int
  /-- Field `taskQ` of `pool`. -/
  taskQ : Chan
  /-- Counter of the field `wg` of `pool`. -/
  wg : Int
  /-- Goroutines started by `go p.worker()`, in creation order. -/
  workers : List WorkerPC
  /-- Calls of `Execute` and `Wait`, in call order. -/
  calls : List Call
  /-- The runtime has terminated the program after an unrecovered panic. -/
  crashed : Bool
  /-- History of actions. -/
  log : List Action
deriving DecidableEq, Repr

/-- The function `New` (lines 30-34): `make(chan Task)` is an unbuffered open channel, the
zero `sync.WaitGroup` has counter 0, no worker exists.  The package variables hold their
initial values of lines 12 and 15. -/
def New : State :=
  { now := 0
    RequestTimeout := 1000000
    IdleTimeout := 1000000000
    taskQ := { cap := 0, buf := [], closed := false }
    wg := 0
    workers := []
    calls := []
    crashed := false
    log := [] }

/-- The instant at which `time.After(d)` called at time `now` delivers. -/
def timerAfter (now : Nat) (d : Int) : Nat := now + d.toNat

/-- One atomic action of one goroutine. -/
inductive Event where
  /-- Time passes. -/
  | advance (d : Nat)
  /-- Some goroutine assigns the package variable `RequestTimeout`. -/
  | setRequestTimeout (d : Int)
  /-- Some goroutine assigns the package variable `IdleTimeout`. -/
  | setIdleTimeout (d : Int)
  /-- A client enters `p.Execute(fn)` and reaches the `select` of line 57. -/
  | callExecute (fn : Task)
  /-- A client enters `p.Wait()`. -/
  | callWait
  /-- Line 58: the send of call `c` meets the receive of waiting worker `w` (line 41). -/
  | selectSend (c w : Nat)
  /-- Line 58 on a channel with buffer space: the send of call `c` is buffered. -/
  | selectSendBuffered (c : Nat)
  /-- Line 61: the timer of call `c` fires; line 64 starts a worker. -/
  | selectTimeout (c : Nat)
  /-- Line 66: the send of call `c` meets the receive of waiting worker `w` (line 41). -/
  | blockingSend (c w : Nat)
  /-- Line 66 on a channel with buffer space. -/
  | blockingSendBuffered (c : Nat)
  /-- Line 58 or line 66 on a closed channel: run-time panic. -/
  | sendOnClosed (c : Nat)
  /-- Lines 37-40: worker `w` registers, defers `Done` and enters the `select`. -/
  | workerStart (w : Nat)
  /-- Line 41 on a non-empty buffer: worker `w` takes the oldest buffered task. -/
  | recvBuffered (w : Nat)
  /-- Lines 41-44: worker `w` sees the closed channel and returns. -/
  | recvClosed (w : Nat)
  /-- Lines 48-51: the idle timer of worker `w` fires and it returns. -/
  | idleTimeout (w : Nat)
  /-- Line 47 returns: worker `w` loops back to the `select`. -/
  | taskReturn (w : Nat)
  /-- Line 47 panics: the panic unwinds worker `w`, running the deferred `Done`. -/
  | taskPanic (w : Nat)
  /-- Line 72: call `c` runs `close(p.taskQ)`. -/
  | closeQueue (c : Nat)
  /-- Line 74: `p.wg.Wait()` of call `c` sees the counter at zero and returns. -/
  | wgWaitReturn (c : Nat)
  /-- The runtime terminates the program because of an unrecovered panic. -/
  | abort
deriving DecidableEq, Repr

/-- Worker `w` receives the task of call `c` and invokes it (lines 41-47). -/
def State.receive (s : State) (w c : Nat) : State :=
  { s with
    workers := s.workers.set w (.executing c)
    log := s.log ++ [.recv w c, .invoke (.worker w) c] }

/-- Worker `w` returns from `worker()`; the deferred `wg.Done()` (line 38) runs. -/
def State.workerReturn (s : State) (w : Nat) : State :=
  { s with
    workers := s.workers.set w .returned
    wg := s.wg - 1
    log := s.log ++ [.done w] }

/-- Call `c` of `Execute(fn)` returns after its send completed. -/
def State.sent (s : State) (c : Nat) (fn : Task) (blocking : Bool) : State :=
  { s with
    calls := s.calls.set c ⟨.execute fn, .returned⟩
    log := s.log ++ [.send c blocking] }

/-- Some goroutine has an unrecovered panic. -/
def State.hasPanic (s : State) : Bool :=
  s.workers.any (fun pc => pc = .panicked) || s.calls.any (fun cl => cl.pc = .panicked)

/-- The transition function: the state after goroutine action `e`, or `none` when `e` is
not enabled in `s`. -/
def step (s : State) (e : Event) : Option State :=
  if s.crashed then none else
  match e with
  | .advance d => some { s with now := s.now + d }
  | .setRequestTimeout d => some { s with RequestTimeout := d }
  | .setIdleTimeout d => some { s with IdleTimeout := d }
  | .callExecute fn =>
      some { s with calls := s.calls ++ [⟨.execute fn, .select (timerAfter s.now s.RequestTimeout)⟩] }
  | .callWait => some { s with calls := s.calls ++ [⟨.wait, .close⟩] }
  | .selectSend c w =>
      match s.calls[c]?, s.workers[w]? with
      | some ⟨.execute fn, .select _⟩, some (.waiting _) =>
          if s.taskQ.closed = false ∧ s.taskQ.buf = [] then
            some ((s.sent c fn false).receive w c)
          else none
      | _, _ => none
  | .selectSendBuffered c =>
      match s.calls[c]? with
      | some ⟨.execute fn, .select _⟩ =>
          if s.taskQ.closed = false ∧ s.taskQ.buf.length < s.taskQ.cap then
            some { s.sent c fn false with taskQ := { s.taskQ with buf := s.taskQ.buf ++ [c] } }
          else none
      | _ => none
  | .selectTimeout c =>
      match s.calls[c]? with
      | some ⟨.execute fn, .select deadline⟩ =>
          if deadline ≤ s.now then
            some { s with
              calls := s.calls.set c ⟨.execute fn, .send⟩
              workers := s.workers ++ [.start]
              log := s.log ++ [.spawn c s.workers.length] }
          else none
      | _ => none
  | .blockingSend c w =>
      match s.calls[c]?, s.workers[w]? with
      | some ⟨.execute fn, .send⟩, some (.waiting _) =>
          if s.taskQ.closed = false ∧ s.taskQ.buf = [] then
            some ((s.sent c fn true).receive w c)
          else none
      | _, _ => none
  | .blockingSendBuffered c =>
      match s.calls[c]? with
      | some ⟨.execute fn, .send⟩ =>
          if s.taskQ.closed = false ∧ s.taskQ.buf.length < s.taskQ.cap then
            some { s.sent c fn true with taskQ := { s.taskQ with buf := s.taskQ.buf ++ [c] } }
          else none
      | _ => none
  | .sendOnClosed c =>
      match s.calls[c]? with
      | some ⟨.execute fn, .select _⟩ =>
          if s.taskQ.closed then some { s with calls := s.calls.set c ⟨.execute fn, .panicked⟩ }
          else none
      | some ⟨.execute fn, .send⟩ =>
          if s.taskQ.closed then some { s with calls := s.calls.set c ⟨.execute fn, .panicked⟩ }
          else none
      | _ => none
  | .workerStart w =>
      match s.workers[w]? with
      | some .start =>
          some { s with
            wg := s.wg + 1
            workers := s.workers.set w (.waiting (timerAfter s.now s.IdleTimeout))
            log := s.log ++ [.add w] }
      | _ => none
  | .recvBuffered w =>
      match s.workers[w]?, s.taskQ.buf with
      | some (.waiting _), c :: rest =>
          some ({ s with taskQ := { s.taskQ with buf := rest } }.receive w c)
      | _, _ => none
  | .recvClosed w =>
      match s.workers[w]? with
      | some (.waiting _) =>
          if s.taskQ.closed = true ∧ s.taskQ.buf = [] then some (s.workerReturn w) else none
      | _ => none
  | .idleTimeout w =>
      match s.workers[w]? with
      | some (.waiting deadline) =>
          if deadline ≤ s.now then some (s.workerReturn w) else none
      | _ => none
  | .taskReturn w =>
      match s.workers[w]? with
      | some (.executing c) =>
          some { s with
            workers := s.workers.set w (.waiting (timerAfter s.now s.IdleTimeout))
            log := s.log ++ [.ret w c] }
      | _ => none
  | .taskPanic w =>
      match s.workers[w]? with
      | some (.executing c) =>
          some { s with
            workers := s.workers.set w .panicked
            wg := s.wg - 1
            log := s.log ++ [.fault w c, .done w] }
      | _ => none
  | .closeQueue c =>
      match s.calls[c]? with
      | some ⟨.wait, .close⟩ =>
          if s.taskQ.closed then some { s with calls := s.calls.set c ⟨.wait, .panicked⟩ }
          else
            some { s with
              taskQ := { s.taskQ with closed := true }
              calls := s.calls.set c ⟨.wait, .wgWait⟩
              log := s.log ++ [.closeQ c] }
      | _ => none
  | .wgWaitReturn c =>
      match s.calls[c]? with
      | some ⟨.wait, .wgWait⟩ =>
          if s.wg = 0 then some { s with calls := s.calls.set c ⟨.wait, .returned⟩ } else none
      | _ => none
  | .abort => if s.hasPanic then some { s with crashed := true } else none

/-- Run an interleaving from `s`; `none` when some event of it is not enabled. -/
def run (s : State) : List Event → Option State
  | [] => some s
  | e :: es => (step s e).bind fun s' => run s' es

/-- States the pool can be in after `New`. -/
def Reachable (s : State) : Prop := ∃ es, run New es = some s

/-! ## Invariants -/

/-- A worker that has run `wg.Add(1)` and whose deferred `wg.Done()` has not run yet. -/
def isLive : WorkerPC → Bool
  | .waiting _ => true
  | .executing _ => true
  | _ => false

/-- A worker whose goroutine has ended (its deferred `wg.Done()` has run). -/
def hasExited : WorkerPC → Bool
  | .returned => true
  | .panicked => true
  | _ => false

/-- The channel made by `make(chan Task)` keeps capacity zero and buffers nothing. -/
def ChanInv (s : State) : Prop := s.taskQ.cap = 0 ∧ s.taskQ.buf = []

/-- The WaitGroup counter is the number of live workers. -/
def WgInv (s : State) : Prop := s.wg = ((s.workers.countP isLive : Nat) : Int)

/-- Number of `wg.Add(1)` a worker at this program point has run (`none`: not created). -/
def addsAt : Option WorkerPC → Nat
  | none => 0
  | some .start => 0
  | some _ => 1

/-- Number of `wg.Done()` a worker at this program point has run (`none`: not created). -/
def donesAt : Option WorkerPC → Nat
  | some .returned => 1
  | some .panicked => 1
  | _ => 0

/-- What the history holds about worker `w`, given its program point. -/
def RegOK (log : List Action) (w : Nat) (pc : Option WorkerPC) : Prop :=
  log.count (.add w) = addsAt pc ∧ log.count (.done w) = donesAt pc

/-- Every worker has registered at most once and deregistered exactly when it exited. -/
def RegInv (s : State) : Prop := ∀ w, RegOK s.log w s.workers[w]?

/-- The action is a receive of the task of call `c` (by any worker). -/
def isRecvOf (c : Nat) : Action → Bool
  | .recv _ c' => decide (c' = c)
  | _ => false

/-- The action is an invocation of the task of call `c` (by anyone). -/
def isInvokeOf (c : Nat) : Action → Bool
  | .invoke _ c' => decide (c' = c)
  | _ => false

/-- The action ends a run of the task of call `c`: it returned, or it panicked. -/
def isEndOf (c : Nat) : Action → Bool
  | .ret _ c' => decide (c' = c)
  | .fault _ c' => decide (c' = c)
  | _ => false

/-- The action is a `go p.worker()` run by call `c`. -/
def isSpawnBy (c : Nat) : Action → Bool
  | .spawn c' _ => decide (c' = c)
  | _ => false

/-- The action is a receive of some task by worker `w`. -/
def isRecvBy (w : Nat) : Action → Bool
  | .recv w' _ => decide (w' = w)
  | _ => false

/-- The action ends a task run inside worker `w`. -/
def isEndBy (w : Nat) : Action → Bool
  | .ret w' _ => decide (w' = w)
  | .fault w' _ => decide (w' = w)
  | _ => false

/-- Number of tasks a worker at this program point holds. -/
def heldAt : Option WorkerPC → Nat
  | some (.executing _) => 1
  | _ => 0

/-- What the history holds about a call, given its program point: `sel` and `blk` count its
completed sends at line 58 and line 66, `sp` its `go p.worker()`, `rc` the receives and `iv`
the invocations of its task. -/
def CallOK (sel blk sp rc iv : Nat) : Option Call → Prop
  | some ⟨.execute _, .select _⟩ => sel = 0 ∧ blk = 0 ∧ sp = 0 ∧ rc = 0 ∧ iv = 0
  | some ⟨.execute _, .send⟩ => sel = 0 ∧ blk = 0 ∧ sp = 1 ∧ rc = 0 ∧ iv = 0
  | some ⟨.execute _, .returned⟩ =>
      ((sel = 1 ∧ blk = 0 ∧ sp = 0) ∨ (sel = 0 ∧ blk = 1 ∧ sp = 1)) ∧ rc = 1 ∧ iv = 1
  | some ⟨.execute _, .panicked⟩ => sel = 0 ∧ blk = 0 ∧ sp ≤ 1 ∧ rc = 0 ∧ iv = 0
  | _ => sel = 0 ∧ blk = 0 ∧ sp = 0 ∧ rc = 0 ∧ iv = 0

/-- The history of every call matches its program point. -/
def CallInv (s : State) : Prop :=
  ∀ c, CallOK (s.log.count (.send c false)) (s.log.count (.send c true))
    (s.log.countP (isSpawnBy c)) (s.log.countP (isRecvOf c)) (s.log.countP (isInvokeOf c))
    s.calls[c]?

/-- A task that was received and has not ended is inside exactly one worker. -/
def ExecInv (s : State) : Prop :=
  ∀ c, s.log.countP (isRecvOf c) = s.log.countP (isEndOf c) + s.workers.count (.executing c)

/-- A worker has received one task more than it has finished exactly while it runs one. -/
def RecvInv (s : State) : Prop :=
  ∀ w, s.log.countP (isRecvBy w) = s.log.countP (isEndBy w) + heldAt s.workers[w]?

/-- Every receive by a worker is followed by its invocation of the task, and no client
goroutine ever invokes a task. -/
def LogInv (s : State) : Prop :=
  (∀ w c, s.log.count (.invoke (.worker w) c) = s.log.count (.recv w c)) ∧
  ∀ c' c, s.log.count (.invoke (.client c') c) = 0

/-- The call is a `Wait` that has run `close(p.taskQ)`. -/
def pastClose : Option Call → Bool
  | some ⟨.wait, .wgWait⟩ => true
  | some ⟨.wait, .returned⟩ => true
  | _ => false

/-- A `Wait` that is past line 72 has left the channel closed. -/
def ClosedInv (s : State) : Prop :=
  ∀ c : Nat, pastClose s.calls[c]? = true → s.taskQ.closed = true

/-- Once some `Wait` has returned, no worker is inside a task. -/
def DrainInv (s : State) : Prop :=
  ∀ c : Nat, s.calls[c]? = some ⟨.wait, .returned⟩ → ∀ w : Nat, heldAt s.workers[w]? = 0

/-- One task is submitted to a fresh pool, runs to completion, and the pool is drained. -/
def drainTrace : List Event :=
  [.callExecute 7, .advance 1000000, .selectTimeout 0, .workerStart 0, .blockingSend 0 0,
   .taskReturn 0, .callWait, .closeQueue 1, .recvClosed 0, .wgWaitReturn 1]

/-- The state reached by `drainTrace`. -/
def drained : State :=
  { now := 1000000
    RequestTimeout := 1000000
    IdleTimeout := 1000000000
    taskQ := { cap := 0, buf := [], closed := true }
    wg := 0
    workers := [.returned]
    calls := [⟨.execute 7, .returned⟩, ⟨.wait, .returned⟩]
    crashed := false
    log := [.spawn 0 0, .add 0, .send 0 true, .recv 0 0, .invoke (.worker 0) 0, .ret 0 0,
            .closeQ 1, .done 0] }

/-- No `Execute` has been called: there is no worker, the counter is zero and every call is a
`Wait`. -/
def NoExecute (s : State) : Prop :=
  s.workers = [] ∧ s.wg = 0 ∧ ∀ cl ∈ s.calls, cl.op = .wait

/-- While a first task is still running, a second `Execute` times out and spawns a worker;
the first worker then frees up and takes the second task; the pool is drained before the
spawned worker has run line 37. -/
def raceTrace : List Event :=
  [.callExecute 1, .advance 1000000, .selectTimeout 0, .workerStart 0, .blockingSend 0 0,
   .callExecute 2, .advance 1000000, .selectTimeout 1, .taskReturn 0, .blockingSend 1 0,
   .taskReturn 0, .callWait, .closeQueue 2, .recvClosed 0, .wgWaitReturn 2]

/-- The call is an `Execute(fn)` that has not returned: it is blocked in a send, or panicked. -/
def pendingExec (fn : Task) : Option Call → Bool
  | some ⟨.execute fn', .select _⟩ => decide (fn' = fn)
  | some ⟨.execute fn', .send⟩ => decide (fn' = fn)
  | some ⟨.execute fn', .panicked⟩ => decide (fn' = fn)
  | _ => false

/-- Call `c` is an `Execute(fn)` facing a closed channel. -/
def SendDoomed (c : Nat) (fn : Task) (s : State) : Prop :=
  s.taskQ.closed = true ∧ pendingExec fn s.calls[c]? = true

/-- The call is a `Wait` that has not got past line 72: about to close, or panicked. -/
def pendingWait : Option Call → Bool
  | some ⟨.wait, .close⟩ => true
  | some ⟨.wait, .panicked⟩ => true
  | _ => false

/-- Call `c` is a `Wait` facing an already closed channel. -/
def CloseDoomed (c : Nat) (s : State) : Prop :=
  s.taskQ.closed = true ∧ pendingWait s.calls[c]? = true

/-- Two tasks are running, each inside its own worker; nothing has panicked yet. -/
def twoBusyTrace : List Event :=
  [.callExecute 1, .advance 1000000, .selectTimeout 0, .workerStart 0, .blockingSend 0 0,
   .callExecute 2, .advance 1000000, .selectTimeout 1, .workerStart 1, .blockingSend 1 1]

/-- The state reached by `twoBusyTrace`. -/
def twoBusy : State :=
  { now := 2000000
    RequestTimeout := 1000000
    IdleTimeout := 1000000000
    taskQ := { cap := 0, buf := [], closed := false }
    wg := 2
    workers := [.executing 0, .executing 1]
    calls := [⟨.execute 1, .returned⟩, ⟨.execute 2, .returned⟩]
    crashed := false
    log := [.spawn 0 0, .add 0, .send 0 true, .recv 0 0, .invoke (.worker 0) 0,
            .spawn 1 1, .add 1, .send 1 true, .recv 1 1, .invoke (.worker 1) 1] }

/-- The claim of fault isolation: whenever a task panics inside a worker of a pool in which
nothing has panicked before, the other workers and the channel are unchanged and, whatever
happens next, later `Execute` calls are still accepted. -/
def FaultIsolated : Prop :=
  ∀ s : State, Reachable s → s.hasPanic = false →
    ∀ (w : Nat) (s' : State), step s (.taskPanic w) = some s' →
      s'.workers[w]? = some .panicked ∧
      (∀ w' : Nat, w' ≠ w → s'.workers[w']? = s.workers[w']?) ∧
      s'.taskQ = s.taskQ ∧
      ∀ (es : List Event) (s'' : State), run s' es = some s'' →
        ∀ fn, step s'' (.callExecute fn) ≠ none

/-- A drained pool: `Wait` has closed the channel and returned. -/
def closedTrace : List Event := [.callWait, .closeQueue 0, .wgWaitReturn 0]

/-- The state reached by `closedTrace`. -/
def closedPool : State :=
  { New with
    taskQ := { cap := 0, buf := [], closed := true }
    calls := [⟨.wait, .returned⟩]
    log := [.closeQ 0] }

/-- The call is an `Execute(fn)`; while it is in its `select`, its timer fires at `deadline`. -/
def execPhase (fn : Task) (deadline : Nat) : Option Call → Bool
  | some ⟨.execute fn', .select d⟩ => decide (fn' = fn ∧ d = deadline)
  | some ⟨.execute fn', .send⟩ => decide (fn' = fn)
  | some ⟨.execute fn', .returned⟩ => decide (fn' = fn)
  | some ⟨.execute fn', .panicked⟩ => decide (fn' = fn)
  | _ => false

/-- A first task is running inside the only worker when a second `Execute` is called. -/
def busyTrace : List Event :=
  [.callExecute 1, .advance 1000000, .selectTimeout 0, .workerStart 0, .blockingSend 0 0,
   .callExecute 2]

/-- The state reached by `busyTrace`: the pool is open, no worker is waiting, call 1 is in its
`select`. -/
def busyPool : State :=
  { now := 1000000
    RequestTimeout := 1000000
    IdleTimeout := 1000000000
    taskQ := { cap := 0, buf := [], closed := false }
    wg := 1
    workers := [.executing 0]
    calls := [⟨.execute 1, .returned⟩, ⟨.execute 2, .select 2000000⟩]
    crashed := false
    log := [.spawn 0 0, .add 0, .send 0 true, .recv 0 0, .invoke (.worker 0) 0] }

/-- The last clause of the claim, read at call time: an `Execute` that is in its `select` on an
open pool with no worker waiting has spawned a worker by the time it returns. -/
def SpawnsWhenNoneWaiting : Prop :=
  ∀ s : State, Reachable s →
    ∀ (c : Nat) (fn : Task) (d : Nat), s.calls[c]? = some ⟨.execute fn, .select d⟩ →
      s.taskQ.closed = false → (∀ w d' : Nat, s.workers[w]? ≠ some (.waiting d')) →
        ∀ (es : List Event) (s' : State), run s es = some s' →
          s'.calls[c]? = some ⟨.execute fn, .returned⟩ → s'.log.countP (isSpawnBy c) = 1

/-! ## Proofs -/

theorem getElem?_set_of_some {α : Type} {l : List α} {i : Nat} {old : α} (a : α) (j : Nat)
    (h : l[i]? = some old) : (l.set i a)[j]? = if j = i then some a else l[j]? := by
  have hi : i < l.length := by
    by_contra hc
    rw [List.getElem?_eq_none (by omega)] at h
    cases h
  by_cases hji : j = i
  · subst hji
    simp [hi]
  · simp [hji, List.getElem?_set_ne (Ne.symm hji)]

theorem getElem?_append_one {α : Type} (l : List α) (a : α) (j : Nat) :
    (l ++ [a])[j]? = if j = l.length then some a else l[j]? := by
  by_cases hj : j < l.length
  · rw [List.getElem?_append_left hj]
    simp [Nat.ne_of_lt hj]
  · by_cases hj2 : j = l.length
    · subst hj2; simp
    · rw [List.getElem?_eq_none (by simp; omega), List.getElem?_eq_none (by omega)]
      simp [hj2]

theorem countP_set_of_some {α : Type} (p : α → Bool) {l : List α} {i : Nat} {old : α} (a : α)
    (h : l[i]? = some old) :
    (l.set i a).countP p + (if p old then 1 else 0) = l.countP p + (if p a then 1 else 0) := by
  induction l generalizing i with
  | nil => simp at h
  | cons x xs ih =>
    cases i with
    | zero =>
      simp at h
      subst h
      simp [List.countP_cons]
      omega
    | succ i =>
      simp at h
      have := ih h
      simp [List.countP_cons]
      omega

theorem run_invariant {P : State → Prop}
    (hstep : ∀ s e s', P s → step s e = some s' → P s') :
    ∀ (es : List Event) (s s' : State), P s → run s es = some s' → P s' := by
  intro es
  induction es with
  | nil =>
    intro s s' hP h
    simp [run] at h
    subst h
    exact hP
  | cons e es ih =>
    intro s s' hP h
    simp only [run] at h
    cases hs : step s e with
    | none => simp [hs] at h
    | some s1 =>
      simp [hs] at h
      exact ih s1 s' (hstep s e s1 hP hs) h

theorem reachable_invariant {P : State → Prop} (h0 : P New)
    (hstep : ∀ s e s', P s → step s e = some s' → P s') {s : State} (h : Reachable s) : P s := by
  obtain ⟨es, hes⟩ := h
  exact run_invariant hstep es New s h0 hes

theorem run_append (s : State) (es es' : List Event) :
    run s (es ++ es') = (run s es).bind fun s' => run s' es' := by
  induction es generalizing s with
  | nil => simp [run]
  | cons e es ih =>
    simp only [List.cons_append, run]
    cases step s e with
    | none => simp
    | some s1 => simp [ih]

theorem reachable_run {s s' : State} (es : List Event) (h : Reachable s)
    (h' : run s es = some s') : Reachable s' := by
  obtain ⟨es0, h0⟩ := h
  exact ⟨es0 ++ es, by rw [run_append, h0]; simpa using h'⟩

theorem chanInv_step {s s' : State} {e : Event} (hI : ChanInv s) (h : step s e = some s') :
    ChanInv s' := by
  obtain ⟨hc, hb⟩ := hI
  unfold step at h
  split at h
  · simp at h
  · cases e <;> simp only at h <;> (repeat' split at h) <;>
      first
      | contradiction
      | (cases h; simp_all [ChanInv, State.sent, State.receive, State.workerReturn])

theorem chanInv_reachable {s : State} (h : Reachable s) : ChanInv s :=
  reachable_invariant (by simp [ChanInv, New]) (fun _ _ _ hI hs => chanInv_step hI hs) h

theorem countP_set_int {α : Type} (p : α → Bool) {l : List α} {i : Nat} {old : α} (a : α)
    (h : l[i]? = some old) :
    (((l.set i a).countP p : Nat) : Int)
      = (l.countP p : Int) - (if p old then 1 else 0) + (if p a then 1 else 0) := by
  have hc := countP_set_of_some p a h
  split_ifs at hc ⊢ <;> omega

theorem wgInv_step {s s' : State} {e : Event} (hI : WgInv s) (h : step s e = some s') :
    WgInv s' := by
  unfold WgInv at hI ⊢
  unfold step at h
  split at h
  · simp at h
  · cases e <;> simp only at h <;> (repeat' split at h) <;>
      first
      | contradiction
      | (cases h
         simp only [State.sent, State.receive, State.workerReturn, List.countP_append,
           List.countP_cons, List.countP_nil]
         first
         | (simpa [isLive] using hI)
         | (rw [countP_set_int isLive _ (by assumption)]
            simp [isLive]
            omega))

theorem wgInv_reachable {s : State} (h : Reachable s) : WgInv s :=
  reachable_invariant (by simp [WgInv, New]) (fun _ _ _ hI hs => wgInv_step hI hs) h

theorem regInv_step {s s' : State} {e : Event} (hI : RegInv s) (h : step s e = some s') :
    RegInv s' := by
  unfold RegInv at hI ⊢
  intro w
  have hw := hI w
  unfold step at h
  split at h
  · simp at h
  · cases e <;> simp only at h <;> (repeat' split at h) <;>
      first
      | contradiction
      | (cases h
         simp only [State.sent, State.receive, State.workerReturn]
         first
         | (simpa [RegOK, List.count_append, List.count_cons] using hw)
         | (rw [getElem?_set_of_some _ _ (by assumption)]
            split
            · subst_vars
              simp_all [RegOK, List.count_append, List.count_cons, addsAt, donesAt]
            · simp_all [RegOK, List.count_append, List.count_cons])
         | (rw [getElem?_append_one]
            split
            · subst_vars
              have := hI s.workers.length
              simp_all [RegOK, List.count_append, List.count_cons, addsAt, donesAt]
            · simp_all [RegOK, List.count_append, List.count_cons]))

theorem logInv_step {s s' : State} {e : Event} (hI : LogInv s) (h : step s e = some s') :
    LogInv s' := by
  obtain ⟨h1, h2⟩ := hI
  unfold step at h
  split at h
  · simp at h
  · cases e <;> simp only at h <;> (repeat' split at h) <;>
      first
      | contradiction
      | (cases h
         simp only [State.sent, State.receive, State.workerReturn, LogInv]
         constructor
         · intro w c
           have := h1 w c
           simp [List.count_append, List.count_cons, this]
         · intro c' c
           have := h2 c' c
           simp [List.count_append, List.count_cons, this])

theorem recvInv_step {s s' : State} {e : Event} (hI : RecvInv s) (h : step s e = some s') :
    RecvInv s' := by
  unfold RecvInv at hI ⊢
  intro w
  have hw := hI w
  unfold step at h
  split at h
  · simp at h
  · cases e <;> simp only at h <;> (repeat' split at h) <;>
      first
      | contradiction
      | (cases h
         simp only [State.sent, State.receive, State.workerReturn]
         first
         | (simpa [List.countP_append, List.countP_cons, isRecvBy, isEndBy] using hw)
         | (rw [getElem?_set_of_some _ _ (by assumption)]
            split
            · subst_vars
              simp_all [List.countP_append, List.countP_cons, isRecvBy, isEndBy, heldAt]
            · simp_all [List.countP_append, List.countP_cons, isRecvBy, isEndBy]
              try omega)
         | (rw [getElem?_append_one]
            split
            · subst_vars
              have := hI s.workers.length
              simp_all [List.countP_append, List.countP_cons, isRecvBy, isEndBy, heldAt]
            · simp_all [List.countP_append, List.countP_cons, isRecvBy, isEndBy]))

set_option maxHeartbeats 4000000 in
theorem callInv_step {s s' : State} {e : Event} (hC : ChanInv s) (hI : CallInv s)
    (h : step s e = some s') : CallInv s' := by
  unfold CallInv at hI ⊢
  obtain ⟨hcap, hbuf⟩ := hC
  intro c
  have hw := hI c
  unfold step at h
  split at h
  · simp at h
  · cases e <;> simp only at h <;> (repeat' split at h) <;>
      first
      | contradiction
      | (exfalso; simp [hcap, hbuf] at *; done)
      | (cases h
         simp only [State.sent, State.receive, State.workerReturn]
         first
         | (simpa [List.count_append, List.count_cons, List.countP_append, List.countP_cons,
              isSpawnBy, isRecvOf, isInvokeOf] using hw)
         | (rw [getElem?_set_of_some _ _ (by assumption)]
            split
            · subst_vars
              simp_all [List.count_append, List.count_cons, List.countP_append, List.countP_cons,
                isSpawnBy, isRecvOf, isInvokeOf, CallOK, -List.countP_eq_zero]
            · rename_i hne
              have hne' := Ne.symm hne
              simpa [List.count_append, List.count_cons, List.countP_append, List.countP_cons,
                isSpawnBy, isRecvOf, isInvokeOf, hne, hne'] using hw)
         | (rw [getElem?_append_one]
            split
            · subst_vars
              have := hI s.calls.length
              simp_all [List.count_append, List.count_cons, List.countP_append, List.countP_cons,
                isSpawnBy, isRecvOf, isInvokeOf, CallOK, -List.countP_eq_zero]
            · simp_all [List.count_append, List.count_cons, List.countP_append, List.countP_cons,
                isSpawnBy, isRecvOf, isInvokeOf]))

theorem count_set_of_some {α : Type} [DecidableEq α] {l : List α} {i : Nat} {old : α} (a b : α)
    (h : l[i]? = some old) :
    (l.set i a).count b = l.count b - (if old = b then 1 else 0) + (if a = b then 1 else 0)
      ∧ (if old = b then 1 else 0) ≤ l.count b := by
  induction l generalizing i with
  | nil => simp at h
  | cons x xs ih =>
    cases i with
    | zero =>
      simp at h
      subst h
      simp only [List.set_cons_zero, List.count_cons, beq_iff_eq]
      split_ifs <;> omega
    | succ i =>
      simp at h
      have := ih h
      simp only [List.set_cons_succ, List.count_cons]
      split_ifs at this ⊢ <;> omega

theorem execInv_step {s s' : State} {e : Event} (hI : ExecInv s) (h : step s e = some s') :
    ExecInv s' := by
  unfold ExecInv at hI ⊢
  intro c
  have hw := hI c
  unfold step at h
  split at h
  · simp at h
  · cases e <;> simp only at h <;> (repeat' split at h) <;>
      first
      | contradiction
      | (cases h
         simp only [State.sent, State.receive, State.workerReturn]
         first
         | (simpa [List.countP_append, List.countP_cons, isRecvOf, isEndOf] using hw)
         | (obtain ⟨hk1, hk2⟩ := count_set_of_some (l := s.workers) _ (WorkerPC.executing c) (by assumption)
            rw [hk1]
            simp only [List.countP_append, List.countP_cons, List.countP_nil, isRecvOf, isEndOf]
            simp at hk2 ⊢
            omega))

theorem closedInv_step {s s' : State} {e : Event} (hI : ClosedInv s) (h : step s e = some s') :
    ClosedInv s' := by
  unfold ClosedInv at hI ⊢
  intro c
  have hw := hI c
  unfold step at h
  split at h
  · simp at h
  · cases e <;> simp only at h <;> (repeat' split at h) <;>
      first
      | contradiction
      | (cases h
         simp only [State.sent, State.receive, State.workerReturn]
         first
         | exact hw
         | (intro _; trivial)
         | (rw [getElem?_set_of_some _ _ (by assumption)]
            split
            · subst_vars
              simp_all [pastClose]
            · exact hw)
         | (rw [getElem?_append_one]
            split
            · simp [pastClose]
            · exact hw))

theorem heldAt_eq_zero_of_countP {ws : List WorkerPC} (h : ws.countP isLive = 0) (w : Nat) :
    heldAt ws[w]? = 0 := by
  cases hq : ws[w]? with
  | none => rfl
  | some pc =>
    have hm : pc ∈ ws := List.getElem?_mem hq
    have := List.countP_eq_zero.mp h pc hm
    cases pc <;> simp_all [heldAt, isLive]

theorem drainInv_step {s s' : State} {e : Event} (hC : ChanInv s) (hW : WgInv s)
    (hCl : ClosedInv s) (hI : DrainInv s) (h : step s e = some s') : DrainInv s' := by
  unfold DrainInv at hI ⊢
  obtain ⟨hcap, hbuf⟩ := hC
  intro c hc w
  by_cases hold : s.calls[c]? = some ⟨.wait, .returned⟩
  · have hz := hI c hold
    have hzw := hz w
    have hcl := hCl c (by simp [hold, pastClose])
    clear hc
    unfold step at h
    split at h
    · simp at h
    · cases e <;> simp only at h <;> (repeat' split at h) <;>
        first
        | contradiction
        | (exfalso; simp [hcap, hbuf, hcl] at *; done)
        | (cases h
           simp only [State.sent, State.receive, State.workerReturn]
           first
           | exact hzw
           | (rw [getElem?_set_of_some _ _ (by assumption)]
              split
              · rfl
              · exact hzw)
           | (rw [getElem?_append_one]
              split
              · rfl
              · exact hzw))
  · unfold step at h
    split at h
    · simp at h
    · cases e <;> simp only at h <;> (repeat' split at h) <;>
        first
        | contradiction
        | (cases h
           simp only [State.sent, State.receive, State.workerReturn] at hc ⊢
           first
           | exact absurd hc hold
           | (exfalso
              rw [getElem?_set_of_some _ _ (by assumption)] at hc
              split at hc
              · simp at hc
              · exact hold hc)
           | (exfalso
              rw [getElem?_append_one] at hc
              split at hc
              · simp at hc
              · exact hold hc)
           | (apply heldAt_eq_zero_of_countP
              unfold WgInv at hW
              omega))

theorem regInv_reachable {s : State} (h : Reachable s) : RegInv s :=
  reachable_invariant (fun w => by simp [RegOK, New, addsAt, donesAt])
    (fun _ _ _ hI hs => regInv_step hI hs) h

theorem logInv_reachable {s : State} (h : Reachable s) : LogInv s :=
  reachable_invariant (by simp [LogInv, New]) (fun _ _ _ hI hs => logInv_step hI hs) h

theorem recvInv_reachable {s : State} (h : Reachable s) : RecvInv s :=
  reachable_invariant (fun w => by simp [New, heldAt]) (fun _ _ _ hI hs => recvInv_step hI hs) h

theorem execInv_reachable {s : State} (h : Reachable s) : ExecInv s :=
  reachable_invariant (fun c => by simp [New]) (fun _ _ _ hI hs => execInv_step hI hs) h

theorem closedInv_reachable {s : State} (h : Reachable s) : ClosedInv s :=
  reachable_invariant (fun c => by simp [New, pastClose])
    (fun _ _ _ hI hs => closedInv_step hI hs) h

theorem callInv_reachable {s : State} (h : Reachable s) : CallInv s := by
  have hboth : ChanInv s ∧ CallInv s :=
    reachable_invariant (P := fun s => ChanInv s ∧ CallInv s)
      ⟨by simp [ChanInv, New], fun c => by simp [New, CallOK]⟩
      (fun _ _ _ hI hs => ⟨chanInv_step hI.1 hs, callInv_step hI.1 hI.2 hs⟩) h
  exact hboth.2

theorem drainInv_reachable {s : State} (h : Reachable s) : DrainInv s := by
  have hall : (ChanInv s ∧ WgInv s ∧ ClosedInv s) ∧ DrainInv s :=
    reachable_invariant (P := fun s => (ChanInv s ∧ WgInv s ∧ ClosedInv s) ∧ DrainInv s)
      ⟨⟨by simp [ChanInv, New], by simp [WgInv, New], fun c => by simp [New, pastClose]⟩,
        fun c hc => by simp [New] at hc⟩
      (fun _ _ _ hI hs =>
        ⟨⟨chanInv_step hI.1.1 hs, wgInv_step hI.1.2.1 hs, closedInv_step hI.1.2.2 hs⟩,
          drainInv_step hI.1.1 hI.1.2.1 hI.1.2.2 hI.2 hs⟩) h
  exact hall.2

theorem drained_reachable : Reachable drained := ⟨drainTrace, by decide⟩

theorem count_executing_eq_zero {ws : List WorkerPC} (h : ∀ w : Nat, heldAt ws[w]? = 0) (c : Nat) :
    ws.count (.executing c) = 0 := by
  rw [List.count_eq_zero]
  intro hm
  obtain ⟨n, hn⟩ := List.mem_iff_getElem?.mp hm
  have := h n
  simp [hn, heldAt] at this

theorem exists_end_of_countP {log : List Action} {c : Nat} (h : log.countP (isEndOf c) = 1) :
    ∃ w, Action.ret w c ∈ log ∨ Action.fault w c ∈ log := by
  have hpos : 0 < log.countP (isEndOf c) := by omega
  obtain ⟨a, ha, hp⟩ := List.countP_pos_iff.mp hpos
  cases a <;> simp [isEndOf] at hp
  · subst hp; exact ⟨_, Or.inl ha⟩
  · subst hp; exact ⟨_, Or.inr ha⟩

theorem recv_unique {log : List Action} {c : Nat} (h : log.countP (isRecvOf c) = 1) :
    ∃ w, log.count (.recv w c) = 1 ∧ ∀ w', w' ≠ w → log.count (.recv w' c) = 0 := by
  induction log with
  | nil => simp at h
  | cons a l ih =>
    by_cases hp : isRecvOf c a = true
    · have hz : l.countP (isRecvOf c) = 0 := by
        rw [List.countP_cons_of_pos _ _ hp] at h
        omega
      have hnone : ∀ w', l.count (.recv w' c) = 0 := by
        intro w'
        rw [List.count_eq_zero]
        intro hm
        have := List.countP_eq_zero.mp hz _ hm
        simp [isRecvOf] at this
      cases a <;> simp [isRecvOf] at hp
      rename_i w0 c0
      subst hp
      refine ⟨w0, by simp [List.count_cons, hnone], ?_⟩
      intro w' hne
      simp [List.count_cons, hnone, hne]
    · have h1 : l.countP (isRecvOf c) = 1 := by
        rw [List.countP_cons_of_neg _ _ hp] at h
        exact h
      obtain ⟨w, hw1, hw2⟩ := ih h1
      have hne : ∀ w', a ≠ .recv w' c := by
        intro w' heq
        subst heq
        simp [isRecvOf] at hp
      refine ⟨w, ?_, ?_⟩
      · rw [List.count_cons_of_ne (hne w).symm]; exact hw1
      · intro w' hw'
        rw [List.count_cons_of_ne (hne w').symm]; exact hw2 w' hw'

/-- C10: the WaitGroup counter equals the number of registered, not yet exited workers, is
never negative, and each worker runs `Add` at most once and `Done` exactly once on each of
the three exit paths. -/
theorem C10_counter_balance (s : State) (h : Reachable s) :
    s.wg = ((s.workers.countP isLive : Nat) : Int) ∧ 0 ≤ s.wg ∧
    (∀ w : Nat, s.log.count (.add w) = addsAt s.workers[w]? ∧
      s.log.count (.done w) = donesAt s.workers[w]?) ∧
    (∀ w : Nat, s.log.count (.done w) ≤ s.log.count (.add w) ∧ s.log.count (.add w) ≤ 1) ∧
    (∀ (w : Nat) (e : Event) (s' : State),
      e = .recvClosed w ∨ e = .idleTimeout w ∨ e = .taskPanic w → step s e = some s' →
        s.log.count (.add w) = 1 ∧ s.log.count (.done w) = 0 ∧
        s'.wg = s.wg - 1 ∧ s'.log.count (.done w) = 1 ∧
        (s'.workers[w]? = some .returned ∨ s'.workers[w]? = some .panicked)) := by
  have hwg := wgInv_reachable h
  have hreg := regInv_reachable h
  refine ⟨hwg, ?_, hreg, ?_, ?_⟩
  · rw [hwg]; exact Int.natCast_nonneg _
  · intro w
    obtain ⟨h1, h2⟩ := hreg w
    rw [h1, h2]
    cases hq : s.workers[w]? with
    | none => simp [addsAt, donesAt]
    | some pc => cases pc <;> simp [addsAt, donesAt]
  · intro w e s' he hs
    obtain ⟨h1, h2⟩ := hreg w
    rw [h1, h2]
    unfold step at hs
    split at hs
    · simp at hs
    · rcases he with he | he | he <;> subst he <;> simp only at hs <;> (repeat' split at hs) <;>
        first
        | contradiction
        | (cases hs
           simp only [State.workerReturn]
           rw [getElem?_set_of_some _ _ (by assumption)]
           simp_all [addsAt, donesAt, List.count_append, List.count_cons])

/-- C10 at `drained`: the only worker registered once and deregistered once; the counter is 0. -/
theorem C10_counter_balance_witness :
    drained.wg = ((drained.workers.countP isLive : Nat) : Int) ∧ 0 ≤ drained.wg ∧
      drained.log.count (.add 0) = 1 ∧ drained.log.count (.done 0) = 1 :=
  ⟨(C10_counter_balance drained drained_reachable).1,
   (C10_counter_balance drained drained_reachable).2.1, by decide, by decide⟩

theorem noExecute_step {s s' : State} {e : Event} (hI : NoExecute s)
    (he : ∀ fn, e ≠ .callExecute fn) (h : step s e = some s') : NoExecute s' := by
  obtain ⟨hw, hg, hc⟩ := hI
  have hcall : ∀ (c : Nat) (fn : Task) (pc : CallPC), s.calls[c]? ≠ some ⟨.execute fn, pc⟩ := by
    intro c fn pc hq
    have := hc _ (List.getElem?_mem hq)
    simp at this
  unfold step at h
  split at h
  · simp at h
  · cases e <;> simp only at h <;> (repeat' split at h) <;>
      first
      | contradiction
      | (exfalso; simp [hw] at *; done)
      | (exfalso; exact hcall _ _ _ (by assumption))
      | (cases h
         refine ⟨hw, hg, ?_⟩
         first
         | exact hc
         | (intro cl hcl
            simp at hcl
            rcases hcl with hcl | hcl
            · exact hc cl hcl
            · subst hcl; rfl)
         | (intro cl hcl
            rcases List.mem_or_eq_of_mem_set hcl with hcl | hcl
            · exact hc cl hcl
            · subst hcl; rfl))

theorem noExecute_run (es : List Event) : ∀ (s s' : State), NoExecute s →
    (∀ fn, Event.callExecute fn ∉ es) → run s es = some s' → NoExecute s' := by
  induction es with
  | nil =>
    intro s s' hI _ h
    simp [run] at h
    subst h
    exact hI
  | cons e es ih =>
    intro s s' hI hne h
    simp only [run] at h
    cases hs : step s e with
    | none => simp [hs] at h
    | some s1 =>
      simp [hs] at h
      refine ih s1 s' (noExecute_step hI ?_ hs) ?_ h
      · intro fn hfn
        exact hne fn (by simp [hfn])
      · intro fn hfn
        exact hne fn (by simp [hfn])

/-- C5: `New` yields a pool with no worker, counter zero and an open channel of capacity zero;
`Wait` right after `New` closes the channel and returns, and as long as no `Execute` is called
the counter stays zero, so `wg.Wait()` never blocks. -/
theorem C5_new_then_wait :
    New.workers = [] ∧ New.wg = 0 ∧ New.taskQ.closed = false ∧ New.taskQ.cap = 0 ∧
    New.taskQ.buf = [] ∧
    run New [.callWait, .closeQueue 0, .wgWaitReturn 0]
      = some { New with
          taskQ := { cap := 0, buf := [], closed := true }
          calls := [⟨.wait, .returned⟩]
          log := [.closeQ 0] } ∧
    (∀ (es : List Event) (s : State), run New es = some s → (∀ fn, Event.callExecute fn ∉ es) →
      s.workers = [] ∧ s.wg = 0 ∧
      ∀ c : Nat, s.calls[c]? = some ⟨.wait, .wgWait⟩ → s.crashed = false →
        step s (.wgWaitReturn c) = some { s with calls := s.calls.set c ⟨.wait, .returned⟩ }) := by
  refine ⟨rfl, rfl, rfl, rfl, rfl, by decide, ?_⟩
  intro es s hrun hne
  have hI : NoExecute s :=
    noExecute_run es New s ⟨rfl, rfl, by simp [New]⟩ hne hrun
  refine ⟨hI.1, hI.2.1, ?_⟩
  intro c hc hcr
  simp [step, hcr, hc, hI.2.1]

/-- C2 (failing input): after `raceTrace` the counter is zero and `Wait` has returned although
the worker spawned by the second `Execute` has not exited (it has not even registered). -/
theorem C2_wait_returns_before_spawned_worker_exits :
    (run New raceTrace).map (fun s => (s.wg, s.workers, s.calls[2]?, s.log.count (.spawn 1 1)))
      = some (0, [.returned, .start], some ⟨.wait, .returned⟩, 1) := by
  decide

/-- C1: in every reachable state in which a `Wait` call has returned, no worker is inside a
task, and the task of every `Execute` call that has returned was received by a worker and its
run has ended (it returned, or it ended by its own panic). -/
theorem C1_drain_guarantee (s : State) (h : Reachable s) (cw : Nat)
    (hw : s.calls[cw]? = some ⟨.wait, .returned⟩) (c : Nat) (fn : Task)
    (hc : s.calls[c]? = some ⟨.execute fn, .returned⟩) :
    (∀ (w c' : Nat), s.workers[w]? ≠ some (.executing c')) ∧
    s.log.countP (isRecvOf c) = 1 ∧ s.log.countP (isEndOf c) = 1 ∧
    ∃ w, Action.ret w c ∈ s.log ∨ Action.fault w c ∈ s.log := by
  have hheld := drainInv_reachable h cw hw
  have hcall := callInv_reachable h c
  have hexec := execInv_reachable h c
  rw [hc] at hcall
  simp only [CallOK] at hcall
  rw [count_executing_eq_zero hheld c] at hexec
  have hend : s.log.countP (isEndOf c) = 1 := by omega
  refine ⟨?_, hcall.2.1, hend, exists_end_of_countP hend⟩
  intro w c' hq
  have := hheld w
  simp [hq, heldAt] at this

/-- C1 at `drained`: `Wait` has returned and the task of call 0 has run to its end. -/
theorem C1_drain_guarantee_witness :
    drained.calls[1]? = some ⟨.wait, .returned⟩ ∧
    drained.calls[0]? = some ⟨.execute 7, .returned⟩ ∧
    ((∀ (w c' : Nat), drained.workers[w]? ≠ some (.executing c')) ∧
      drained.log.countP (isRecvOf 0) = 1 ∧ drained.log.countP (isEndOf 0) = 1 ∧
      ∃ w, Action.ret w 0 ∈ drained.log ∨ Action.fault w 0 ∈ drained.log) :=
  ⟨rfl, rfl, C1_drain_guarantee drained drained_reachable 1 rfl 0 7 rfl⟩

/-- C9: the task of every `Execute` call that returned was sent exactly once (at line 58 or
at line 66, not both), received by exactly one worker, invoked exactly once, by that worker,
and never by a client goroutine. -/
theorem C9_exactly_once_handoff (s : State) (h : Reachable s) (c : Nat) (fn : Task)
    (hc : s.calls[c]? = some ⟨.execute fn, .returned⟩) :
    s.log.count (.send c false) + s.log.count (.send c true) = 1 ∧
    (∃ w, s.log.count (.recv w c) = 1 ∧ s.log.count (.invoke (.worker w) c) = 1 ∧
      ∀ w', w' ≠ w →
        s.log.count (.recv w' c) = 0 ∧ s.log.count (.invoke (.worker w') c) = 0) ∧
    s.log.countP (isInvokeOf c) = 1 ∧
    (∀ c', s.log.count (.invoke (.client c') c) = 0) := by
  have hcall := callInv_reachable h c
  obtain ⟨hl1, hl2⟩ := logInv_reachable h
  rw [hc] at hcall
  simp only [CallOK] at hcall
  obtain ⟨hsend, hrc, hiv⟩ := hcall
  obtain ⟨w, hw1, hw2⟩ := recv_unique hrc
  refine ⟨by omega, ⟨w, hw1, by rw [hl1, hw1], ?_⟩, hiv, fun c' => hl2 c' c⟩
  intro w' hne
  exact ⟨hw2 w' hne, by rw [hl1, hw2 w' hne]⟩

/-- C9 at `drained`: the task of call 0 was sent once and invoked once. -/
theorem C9_exactly_once_handoff_witness :
    drained.calls[0]? = some ⟨.execute 7, .returned⟩ ∧
    drained.log.count (.send 0 false) + drained.log.count (.send 0 true) = 1 ∧
    drained.log.countP (isInvokeOf 0) = 1 :=
  ⟨rfl, (C9_exactly_once_handoff drained drained_reachable 0 7 rfl).1,
    (C9_exactly_once_handoff drained drained_reachable 0 7 rfl).2.2.1⟩

theorem not_crashed_of_step {s s' : State} {e : Event} (h : step s e = some s') :
    s.crashed = false := by
  cases hcr : s.crashed with
  | false => rfl
  | true => simp [step, hcr] at h

theorem step_crashed (s : State) (e : Event) (h : s.crashed = true) : step s e = none := by
  simp [step, h]

theorem waiting_step {s s' : State} {e : Event} {w d : Nat} (hC : ChanInv s)
    (hq : s.workers[w]? = some (.waiting d)) (h : step s e = some s') :
    s'.workers[w]? = some (.waiting d) ∨
    (∃ c, s'.workers[w]? = some (.executing c) ∧
      (e = .selectSend c w ∨ e = .blockingSend c w)) ∨
    (s'.workers[w]? = some .returned ∧
      ((e = .recvClosed w ∧ s.taskQ.closed = true) ∨ (e = .idleTimeout w ∧ d ≤ s.now))) := by
  obtain ⟨hcap, hbuf⟩ := hC
  unfold step at h
  split at h
  · simp at h
  · cases e <;> simp only at h <;> (repeat' split at h) <;>
      first
      | contradiction
      | (exfalso; simp [hcap, hbuf] at *; done)
      | (cases h
         simp only [State.sent, State.receive, State.workerReturn]
         first
         | exact Or.inl hq
         | (rw [getElem?_set_of_some _ _ (by assumption)]
            split
            · subst_vars
              simp_all
            · exact Or.inl hq)
         | (rw [getElem?_append_one]
            split
            · subst_vars
              simp at hq
            · exact Or.inl hq))

theorem executing_step {s s' : State} {e : Event} {w c : Nat}
    (hq : s.workers[w]? = some (.executing c)) (h : step s e = some s') :
    s'.workers[w]? = some (.executing c) ∨
    (e = .taskReturn w ∧
      s'.workers[w]? = some (.waiting (timerAfter s.now s.IdleTimeout)) ∧
      s'.log = s.log ++ [.ret w c]) ∨
    (e = .taskPanic w ∧ s'.workers[w]? = some .panicked) := by
  unfold step at h
  split at h
  · simp at h
  · cases e <;> simp only at h <;> (repeat' split at h) <;>
      first
      | contradiction
      | (cases h
         simp only [State.sent, State.receive, State.workerReturn]
         first
         | exact Or.inl hq
         | (rw [getElem?_set_of_some _ _ (by assumption)]
            split
            · subst_vars
              simp_all
            · exact Or.inl hq)
         | (rw [getElem?_append_one]
            split
            · subst_vars
              simp at hq
            · exact Or.inl hq))

theorem start_step {s s' : State} {e : Event} {w : Nat}
    (hq : s.workers[w]? = some .start) (h : step s e = some s') :
    s'.workers[w]? = some .start ∨
    (e = .workerStart w ∧
      s'.workers[w]? = some (.waiting (timerAfter s.now s.IdleTimeout))) := by
  unfold step at h
  split at h
  · simp at h
  · cases e <;> simp only at h <;> (repeat' split at h) <;>
      first
      | contradiction
      | (cases h
         simp only [State.sent, State.receive, State.workerReturn]
         first
         | exact Or.inl hq
         | (rw [getElem?_set_of_some _ _ (by assumption)]
            split
            · subst_vars
              simp_all
            · exact Or.inl hq)
         | (rw [getElem?_append_one]
            split
            · subst_vars
              simp at hq
            · exact Or.inl hq))

theorem ended_step {s s' : State} {e : Event} {w : Nat} {pc : WorkerPC}
    (hpc : hasExited pc = true) (hq : s.workers[w]? = some pc) (h : step s e = some s') :
    s'.workers[w]? = some pc := by
  unfold step at h
  split at h
  · simp at h
  · cases e <;> simp only at h <;> (repeat' split at h) <;>
      first
      | contradiction
      | (cases h
         simp only [State.sent, State.receive, State.workerReturn]
         first
         | exact hq
         | (rw [getElem?_set_of_some _ _ (by assumption)]
            split
            · subst_vars
              simp_all [hasExited]
            · exact hq)
         | (rw [getElem?_append_one]
            split
            · subst_vars
              simp at hq
            · exact hq))

theorem sendDoomed_step {c : Nat} {fn : Task} {s s' : State} {e : Event}
    (hI : SendDoomed c fn s) (h : step s e = some s') : SendDoomed c fn s' := by
  obtain ⟨hcl, hp⟩ := hI
  unfold SendDoomed
  unfold step at h
  split at h
  · simp at h
  · cases e <;> simp only at h <;> (repeat' split at h) <;>
      first
      | contradiction
      | (exfalso; simp [hcl] at *; done)
      | (cases h
         simp only [State.sent, State.receive, State.workerReturn]
         first
         | exact ⟨hcl, hp⟩
         | (refine ⟨hcl, ?_⟩
            rw [getElem?_set_of_some _ _ (by assumption)]
            split
            · subst_vars
              simp_all [pendingExec]
            · exact hp)
         | (refine ⟨hcl, ?_⟩
            rw [getElem?_append_one]
            split
            · subst_vars
              simp [pendingExec] at hp
            · exact hp))

theorem closeDoomed_step {c : Nat} {s s' : State} {e : Event}
    (hI : CloseDoomed c s) (h : step s e = some s') : CloseDoomed c s' := by
  obtain ⟨hcl, hp⟩ := hI
  unfold CloseDoomed
  unfold step at h
  split at h
  · simp at h
  · cases e <;> simp only at h <;> (repeat' split at h) <;>
      first
      | contradiction
      | (exfalso; simp [hcl] at *; done)
      | (cases h
         simp only [State.sent, State.receive, State.workerReturn]
         first
         | exact ⟨hcl, hp⟩
         | (refine ⟨hcl, ?_⟩
            rw [getElem?_set_of_some _ _ (by assumption)]
            split
            · subst_vars
              simp_all [pendingWait]
            · exact hp)
         | (refine ⟨hcl, ?_⟩
            rw [getElem?_append_one]
            split
            · subst_vars
              simp [pendingWait] at hp
            · exact hp))

theorem twoBusy_reachable : Reachable twoBusy := ⟨twoBusyTrace, by decide⟩

theorem closedPool_reachable : Reachable closedPool := ⟨closedTrace, by decide⟩

theorem hasPanic_of_worker {s : State} {w : Nat} (h : s.workers[w]? = some .panicked) :
    s.hasPanic = true := by
  unfold State.hasPanic
  simp only [Bool.or_eq_true, List.any_eq_true]
  exact Or.inl ⟨_, List.getElem?_mem h, by simp⟩

/-- C7: a waiting worker leaves `Waiting` only by receiving a task (to `Executing`) or by
returning on a closed channel or on its idle timer, armed with the current `IdleTimeout` each
time the worker enters the `select`; a task that returns sends the worker back to `Waiting`;
a returned worker stays returned; a worker holds at most one task. -/
theorem C7_worker_lifecycle (s : State) (h : Reachable s) (w : Nat) :
    (s.log.countP (isRecvBy w) = s.log.countP (isEndBy w) + heldAt s.workers[w]? ∧
      heldAt s.workers[w]? ≤ 1) ∧
    (∀ (d : Nat) (e : Event) (s' : State),
      s.workers[w]? = some (.waiting d) → step s e = some s' →
        s'.workers[w]? = some (.waiting d) ∨
        (∃ c, s'.workers[w]? = some (.executing c) ∧
          (e = .selectSend c w ∨ e = .blockingSend c w)) ∨
        (s'.workers[w]? = some .returned ∧
          ((e = .recvClosed w ∧ s.taskQ.closed = true) ∨
            (e = .idleTimeout w ∧ d ≤ s.now)))) ∧
    (∀ d : Nat, s.workers[w]? = some (.waiting d) → s.crashed = false →
      step s (.recvClosed w) = (if s.taskQ.closed then some (s.workerReturn w) else none) ∧
      step s (.idleTimeout w) = (if d ≤ s.now then some (s.workerReturn w) else none) ∧
      (s.workerReturn w).workers[w]? = some .returned) ∧
    (∀ (c : Nat) (e : Event) (s' : State),
      s.workers[w]? = some (.executing c) → step s e = some s' →
        s'.workers[w]? = some (.executing c) ∨
        (e = .taskReturn w ∧
          s'.workers[w]? = some (.waiting (timerAfter s.now s.IdleTimeout)) ∧
          s'.log = s.log ++ [.ret w c]) ∨
        (e = .taskPanic w ∧ s'.workers[w]? = some .panicked)) ∧
    (∀ (e : Event) (s' : State), s.workers[w]? = some .start → step s e = some s' →
        s'.workers[w]? = some .start ∨
        (e = .workerStart w ∧
          s'.workers[w]? = some (.waiting (timerAfter s.now s.IdleTimeout)))) ∧
    (∀ (e : Event) (s' : State), s.workers[w]? = some .returned → step s e = some s' →
        s'.workers[w]? = some .returned) := by
  have hchan := chanInv_reachable h
  refine ⟨⟨recvInv_reachable h w, ?_⟩, ?_, ?_, ?_, ?_, ?_⟩
  · cases hq : s.workers[w]? with
    | none => simp [heldAt]
    | some pc => cases pc <;> simp [heldAt]
  · intro d e s' hq hs
    exact waiting_step hchan hq hs
  · intro d hq hcr
    refine ⟨?_, ?_, ?_⟩
    · simp [step, hcr, hq, hchan.2]
    · simp [step, hcr, hq]
    · simp only [State.workerReturn]
      rw [getElem?_set_of_some _ _ hq]
      simp
  · intro c e s' hq hs
    exact executing_step hq hs
  · intro e s' hq hs
    exact start_step hq hs
  · intro e s' hq hs
    exact ended_step rfl hq hs

/-- C7 at `twoBusy`: worker 0 runs a task and holds exactly that one. -/
theorem C7_worker_lifecycle_witness :
    twoBusy.workers[0]? = some (.executing 0) ∧
    (twoBusy.log.countP (isRecvBy 0) = twoBusy.log.countP (isEndBy 0) + heldAt twoBusy.workers[0]? ∧
      heldAt twoBusy.workers[0]? ≤ 1) :=
  ⟨rfl, (C7_worker_lifecycle twoBusy twoBusy_reachable 0).1⟩

theorem step_callExecute (s : State) (fn : Task) (hcr : s.crashed = false) :
    step s (.callExecute fn)
      = some { s with
          calls := s.calls ++ [⟨.execute fn, .select (timerAfter s.now s.RequestTimeout)⟩] } := by
  simp [step, hcr]

theorem step_callWait (s : State) (hcr : s.crashed = false) :
    step s .callWait = some { s with calls := s.calls ++ [⟨.wait, .close⟩] } := by
  simp [step, hcr]

theorem step_send_closed (s : State) (c w : Nat) (hcl : s.taskQ.closed = true) :
    step s (.selectSend c w) = none ∧ step s (.blockingSend c w) = none := by
  constructor <;> unfold step <;> split <;> first
    | rfl
    | (simp only []; (repeat' split) <;> first | rfl | simp_all)

theorem run_sendDoomed {c : Nat} {fn : Task} (es : List Event) (s s' : State)
    (hI : SendDoomed c fn s) (h : run s es = some s') : SendDoomed c fn s' :=
  run_invariant (P := SendDoomed c fn) (fun _ _ _ hI hs => sendDoomed_step hI hs) es s s' hI h

theorem run_closeDoomed {c : Nat} (es : List Event) (s s' : State)
    (hI : CloseDoomed c s) (h : run s es = some s') : CloseDoomed c s' :=
  run_invariant (P := CloseDoomed c) (fun _ _ _ hI hs => closeDoomed_step hI hs) es s s' hI h

/-- C3: an `Execute(fn)` called on a pool whose channel `Wait` has closed never returns
normally and its task is never sent, received, invoked or held by a worker; as long as the
call has not panicked, the send on the closed channel panics. -/
theorem C3_execute_after_close (s : State) (h : Reachable s) (hcl : s.taskQ.closed = true)
    (fn : Task) (s1 : State) (h1 : step s (.callExecute fn) = some s1)
    (es : List Event) (s2 : State) (h2 : run s1 es = some s2) :
    (s2.calls[s.calls.length]? = some ⟨.execute fn, .panicked⟩ ∨
      s2.calls[s.calls.length]? = some ⟨.execute fn, .send⟩ ∨
      ∃ d, s2.calls[s.calls.length]? = some ⟨.execute fn, .select d⟩) ∧
    s2.calls[s.calls.length]? ≠ some ⟨.execute fn, .returned⟩ ∧
    s2.log.count (.send s.calls.length false) = 0 ∧
    s2.log.count (.send s.calls.length true) = 0 ∧
    s2.log.countP (isRecvOf s.calls.length) = 0 ∧
    s2.log.countP (isInvokeOf s.calls.length) = 0 ∧
    (∀ w : Nat, s2.workers[w]? ≠ some (.executing s.calls.length)) ∧
    (∀ w : Nat, step s2 (.selectSend s.calls.length w) = none ∧
      step s2 (.blockingSend s.calls.length w) = none) ∧
    (s2.crashed = false → s2.calls[s.calls.length]? ≠ some ⟨.execute fn, .panicked⟩ →
      step s2 (.sendOnClosed s.calls.length)
        = some { s2 with calls := s2.calls.set s.calls.length ⟨.execute fn, .panicked⟩ }) := by
  have hcr := not_crashed_of_step h1
  rw [step_callExecute s fn hcr] at h1
  cases h1
  have hd0 : SendDoomed s.calls.length fn
      { s with calls := s.calls ++ [⟨.execute fn, .select (timerAfter s.now s.RequestTimeout)⟩] } := by
    refine ⟨hcl, ?_⟩
    simp [pendingExec]
  obtain ⟨hcl2, hp⟩ := run_sendDoomed es _ s2 hd0 h2
  have hreach1 : Reachable
      { s with calls := s.calls ++ [⟨.execute fn, .select (timerAfter s.now s.RequestTimeout)⟩] } :=
    reachable_run [.callExecute fn] h (by simp [run, step_callExecute s fn hcr])
  have hreach2 : Reachable s2 := reachable_run es hreach1 h2
  have hcall := callInv_reachable hreach2 s.calls.length
  have hexec := execInv_reachable hreach2 s.calls.length
  have hpc : (s2.calls[s.calls.length]? = some ⟨.execute fn, .panicked⟩ ∨
      s2.calls[s.calls.length]? = some ⟨.execute fn, .send⟩ ∨
      ∃ d, s2.calls[s.calls.length]? = some ⟨.execute fn, .select d⟩) := by
    cases hq : s2.calls[s.calls.length]? with
    | none => simp [hq, pendingExec] at hp
    | some cl =>
      obtain ⟨op, pc⟩ := cl
      cases op <;> cases pc <;> simp [hq, pendingExec] at hp <;> simp [hp]
  have hzero : s2.log.count (.send s.calls.length false) = 0 ∧
      s2.log.count (.send s.calls.length true) = 0 ∧
      s2.log.countP (isRecvOf s.calls.length) = 0 ∧
      s2.log.countP (isInvokeOf s.calls.length) = 0 := by
    rcases hpc with hq | hq | ⟨d, hq⟩ <;> rw [hq] at hcall <;> simp only [CallOK] at hcall <;>
      exact ⟨hcall.1, hcall.2.1, hcall.2.2.2.1, hcall.2.2.2.2⟩
  have hnoexec : s2.workers.count (.executing s.calls.length) = 0 := by omega
  refine ⟨hpc, ?_, hzero.1, hzero.2.1, hzero.2.2.1, hzero.2.2.2, ?_, ?_, ?_⟩
  · rcases hpc with hq | hq | ⟨d, hq⟩ <;> simp [hq]
  · intro w hq
    have := List.count_eq_zero.mp hnoexec
    exact this (List.getElem?_mem hq)
  · intro w
    exact step_send_closed s2 _ w hcl2
  · intro hcr2 hnp
    rcases hpc with hq | hq | ⟨d, hq⟩
    · exact absurd hq hnp
    · simp [step, hcr2, hq, hcl2]
    · simp [step, hcr2, hq, hcl2]

/-- C3 at `closedPool`: `Execute(5)` after `Wait` panics in its send and has not returned. -/
theorem C3_execute_after_close_witness :
    closedPool.taskQ.closed = true ∧
    step closedPool (.callExecute 5)
      = some { closedPool with calls := closedPool.calls ++ [⟨.execute 5, .select 1000000⟩] } ∧
    run { closedPool with calls := closedPool.calls ++ [⟨.execute 5, .select 1000000⟩] }
        [.sendOnClosed 1]
      = some { closedPool with calls := closedPool.calls ++ [⟨.execute 5, .panicked⟩] } ∧
    ({ closedPool with calls := closedPool.calls ++ [⟨.execute 5, .panicked⟩] } : State).calls[1]?
      ≠ some ⟨.execute 5, .returned⟩ :=
  ⟨rfl, by decide, by decide,
    (C3_execute_after_close closedPool closedPool_reachable rfl 5
      { closedPool with calls := closedPool.calls ++ [⟨.execute 5, .select 1000000⟩] } (by decide)
      [.sendOnClosed 1]
      { closedPool with calls := closedPool.calls ++ [⟨.execute 5, .panicked⟩] } (by decide)).2.1⟩

/-- C4: a `Wait` called on a pool whose channel is already closed never gets past line 72 and
never returns; as long as it has not panicked, its `close` panics, and that step changes
nothing but the program point of the call. -/
theorem C4_second_wait_panics (s : State) (hcl : s.taskQ.closed = true)
    (s1 : State) (h1 : step s .callWait = some s1)
    (es : List Event) (s2 : State) (h2 : run s1 es = some s2) :
    (s2.calls[s.calls.length]? = some ⟨.wait, .close⟩ ∨
      s2.calls[s.calls.length]? = some ⟨.wait, .panicked⟩) ∧
    s2.calls[s.calls.length]? ≠ some ⟨.wait, .returned⟩ ∧
    s2.taskQ.closed = true ∧
    step s2 (.wgWaitReturn s.calls.length) = none ∧
    (s2.crashed = false → s2.calls[s.calls.length]? = some ⟨.wait, .close⟩ →
      step s2 (.closeQueue s.calls.length)
        = some { s2 with calls := s2.calls.set s.calls.length ⟨.wait, .panicked⟩ }) := by
  have hcr := not_crashed_of_step h1
  rw [step_callWait s hcr] at h1
  cases h1
  have hd0 : CloseDoomed s.calls.length { s with calls := s.calls ++ [⟨.wait, .close⟩] } := by
    refine ⟨hcl, ?_⟩
    simp [pendingWait]
  obtain ⟨hcl2, hp⟩ := run_closeDoomed es _ s2 hd0 h2
  have hpc : (s2.calls[s.calls.length]? = some ⟨.wait, .close⟩ ∨
      s2.calls[s.calls.length]? = some ⟨.wait, .panicked⟩) := by
    cases hq : s2.calls[s.calls.length]? with
    | none => simp [hq, pendingWait] at hp
    | some cl =>
      obtain ⟨op, pc⟩ := cl
      cases op <;> cases pc <;> simp [hq, pendingWait] at hp <;> simp
  refine ⟨hpc, ?_, hcl2, ?_, ?_⟩
  · rcases hpc with hq | hq <;> simp [hq]
  · unfold step
    split
    · rfl
    · rcases hpc with hq | hq <;> simp [hq]
  · intro hcr2 hq
    simp [step, hcr2, hq, hcl2]

/-- C4 at `closedPool`: a second `Wait` panics in `close` and has not returned. -/
theorem C4_second_wait_panics_witness :
    closedPool.taskQ.closed = true ∧
    run { closedPool with calls := closedPool.calls ++ [⟨.wait, .close⟩] } [.closeQueue 1]
      = some { closedPool with calls := closedPool.calls ++ [⟨.wait, .panicked⟩] } ∧
    ({ closedPool with calls := closedPool.calls ++ [⟨.wait, .panicked⟩] } : State).calls[1]?
      ≠ some ⟨.wait, .returned⟩ :=
  ⟨rfl, by decide,
    (C4_second_wait_panics closedPool rfl
      { closedPool with calls := closedPool.calls ++ [⟨.wait, .close⟩] } (by decide)
      [.closeQueue 1]
      { closedPool with calls := closedPool.calls ++ [⟨.wait, .panicked⟩] } (by decide)).2.1⟩

theorem panicked_stays {s s' : State} {w : Nat} (es : List Event)
    (hq : s.workers[w]? = some .panicked) (h : run s es = some s') :
    s'.workers[w]? = some .panicked :=
  run_invariant (P := fun s => s.workers[w]? = some .panicked)
    (fun _ _ _ hI hs => ended_step rfl hI hs) es s s' hq h

/-- C8 (counterexample): in `twoBusy` nothing has panicked and two workers run a task each;
when the task of worker 0 panics, the runtime terminates the program: worker 1 can no longer
finish its task and no `Execute` call is accepted.  So the isolation claim fails. -/
theorem C8_fault_is_not_isolated :
    twoBusy.hasPanic = false ∧
    run twoBusy [.taskPanic 0, .abort]
      = some { twoBusy with
          wg := 1
          workers := [.panicked, .executing 1]
          crashed := true
          log := twoBusy.log ++ [.fault 0 0, .done 0] } ∧
    step twoBusy (.taskReturn 1) ≠ none ∧
    (run twoBusy [.taskPanic 0, .abort]).bind (fun s => step s (.taskReturn 1)) = none ∧
    (run twoBusy [.taskPanic 0, .abort]).bind (fun s => step s (.callExecute 3)) = none ∧
    ¬ FaultIsolated := by
  refine ⟨by decide, by decide, by decide, by decide, by decide, ?_⟩
  intro hiso
  have h1 := hiso twoBusy twoBusy_reachable (by decide) 0
    { twoBusy with
      wg := 1
      workers := [.panicked, .executing 1]
      log := twoBusy.log ++ [.fault 0 0, .done 0] } (by decide)
  have h2 := h1.2.2.2 [.abort]
    { twoBusy with
      wg := 1
      workers := [.panicked, .executing 1]
      crashed := true
      log := twoBusy.log ++ [.fault 0 0, .done 0] } (by decide) 3
  exact h2 (by decide)

/-- C8 (amended): a panic of the task inside worker `w` is not intercepted: the deferred
`Done` runs, the worker is gone for good, and that step leaves the other workers, the channel
and the calls unchanged; from then on the runtime can terminate the program at any moment,
and once it has, no goroutine takes a step. -/
theorem C8_fault_unwinds_and_aborts (s : State) (w c : Nat)
    (hq : s.workers[w]? = some (.executing c)) (hcr : s.crashed = false) :
    ∃ s', step s (.taskPanic w) = some s' ∧
      s'.workers = s.workers.set w .panicked ∧
      (∀ w' : Nat, w' ≠ w → s'.workers[w']? = s.workers[w']?) ∧
      s'.taskQ = s.taskQ ∧ s'.calls = s.calls ∧ s'.wg = s.wg - 1 ∧
      s'.log = s.log ++ [.fault w c, .done w] ∧
      (∀ (es : List Event) (s'' : State), run s' es = some s'' →
        s''.workers[w]? = some .panicked ∧
        (s''.crashed = false → step s'' .abort = some { s'' with crashed := true })) ∧
      (∀ (s'' : State) (e : Event), s''.crashed = true → step s'' e = none) := by
  refine ⟨{ s with
      workers := s.workers.set w .panicked
      wg := s.wg - 1
      log := s.log ++ [.fault w c, .done w] }, ?_, rfl, ?_, rfl, rfl, rfl, rfl, ?_, ?_⟩
  · simp [step, hcr, hq]
  · intro w' hne
    simp only []
    rw [getElem?_set_of_some _ _ hq]
    simp [hne]
  · intro es s'' hrun
    have hp : s''.workers[w]? = some .panicked := by
      refine panicked_stays es ?_ hrun
      simp only []
      rw [getElem?_set_of_some _ _ hq]
      simp
    refine ⟨hp, ?_⟩
    intro hcr2
    simp [step, hcr2, hasPanic_of_worker hp]
  · intro s'' e h
    exact step_crashed s'' e h

/-- C8 (amended) at `twoBusy`: the task of worker 0 panics. -/
theorem C8_fault_unwinds_and_aborts_witness :
    twoBusy.workers[0]? = some (.executing 0) ∧ twoBusy.crashed = false ∧
    ∃ s', step twoBusy (.taskPanic 0) = some s' ∧
      s'.workers = twoBusy.workers.set 0 .panicked ∧
      (∀ w' : Nat, w' ≠ 0 → s'.workers[w']? = twoBusy.workers[w']?) ∧
      s'.taskQ = twoBusy.taskQ ∧ s'.calls = twoBusy.calls ∧ s'.wg = twoBusy.wg - 1 ∧
      s'.log = twoBusy.log ++ [.fault 0 0, .done 0] ∧
      (∀ (es : List Event) (s'' : State), run s' es = some s'' →
        s''.workers[0]? = some .panicked ∧
        (s''.crashed = false → step s'' .abort = some { s'' with crashed := true })) ∧
      (∀ (s'' : State) (e : Event), s''.crashed = true → step s'' e = none) :=
  ⟨rfl, rfl, C8_fault_unwinds_and_aborts twoBusy 0 0 rfl rfl⟩

theorem busyPool_reachable : Reachable busyPool := ⟨busyTrace, by decide⟩

theorem execPhase_step {c : Nat} {fn : Task} {D : Nat} {s s' : State} {e : Event}
    (hp : execPhase fn D s.calls[c]? = true) (h : step s e = some s') :
    execPhase fn D s'.calls[c]? = true := by
  unfold step at h
  split at h
  · simp at h
  · cases e <;> simp only at h <;> (repeat' split at h) <;>
      first
      | contradiction
      | (cases h
         simp only [State.sent, State.receive, State.workerReturn]
         first
         | exact hp
         | (rw [getElem?_set_of_some _ _ (by assumption)]
            split
            · subst_vars
              simp_all [execPhase]
            · exact hp)
         | (rw [getElem?_append_one]
            split
            · subst_vars
              simp [execPhase] at hp
            · exact hp))

theorem run_execPhase {c : Nat} {fn : Task} {D : Nat} (es : List Event) (s s' : State)
    (hp : execPhase fn D s.calls[c]? = true) (h : run s es = some s') :
    execPhase fn D s'.calls[c]? = true :=
  run_invariant (P := fun s => execPhase fn D s.calls[c]? = true)
    (fun _ _ _ hI hs => execPhase_step hI hs) es s s' hp h

theorem select_step {s s' : State} {e : Event} {c : Nat} {fn : Task} {d : Nat}
    (hC : ChanInv s) (hq : s.calls[c]? = some ⟨.execute fn, .select d⟩) (hopen : s.taskQ.closed = false)
    (hnw : ∀ w d' : Nat, s.workers[w]? ≠ some (.waiting d')) (h : step s e = some s') :
    s'.calls[c]? = some ⟨.execute fn, .select d⟩ ∨
    (e = .selectTimeout c ∧ d ≤ s.now ∧ s'.workers = s.workers ++ [.start] ∧
      s'.calls[c]? = some ⟨.execute fn, .send⟩ ∧
      s'.log = s.log ++ [.spawn c s.workers.length]) := by
  obtain ⟨hcap, hbuf⟩ := hC
  unfold step at h
  split at h
  · simp at h
  · cases e <;> simp only at h <;> (repeat' split at h) <;>
      first
      | contradiction
      | (exfalso; exact hnw _ _ (by assumption))
      | (exfalso; simp [hopen] at *; done)
      | (exfalso; simp [hcap, hbuf] at *; done)
      | (cases h
         simp only [State.sent, State.receive, State.workerReturn]
         first
         | exact Or.inl hq
         | (rw [getElem?_set_of_some _ _ (by assumption)]
            split
            · subst_vars
              simp_all
            · exact Or.inl hq)
         | (rw [getElem?_append_one]
            split
            · subst_vars
              simp at hq
            · exact Or.inl hq))

theorem execute_call_facts (s : State) (h : Reachable s) (c : Nat) (fn : Task)
    (pc : CallPC) (hc : s.calls[c]? = some ⟨.execute fn, pc⟩) :
    s.log.countP (isSpawnBy c) ≤ 1 ∧
    (pc = .returned →
      (s.log.count (.send c false) = 1 ∧ s.log.count (.send c true) = 0 ∧
        s.log.countP (isSpawnBy c) = 0) ∨
      (s.log.count (.send c false) = 0 ∧ s.log.count (.send c true) = 1 ∧
        s.log.countP (isSpawnBy c) = 1)) ∧
    (∀ d, pc = .select d →
      s.log.countP (isSpawnBy c) = 0 ∧
      (∀ w s', step s (.selectSend c w) = some s' →
        (∃ d', s.workers[w]? = some (.waiting d')) ∧
        s'.workers = s.workers.set w (.executing c) ∧
        s'.calls[c]? = some ⟨.execute fn, .returned⟩ ∧
        s'.log.countP (isSpawnBy c) = 0) ∧
      (∀ s', step s (.selectTimeout c) = some s' →
        d ≤ s.now ∧ s'.workers = s.workers ++ [.start] ∧
        s'.calls[c]? = some ⟨.execute fn, .send⟩ ∧
        s'.log.countP (isSpawnBy c) = 1) ∧
      step s (.selectSendBuffered c) = none ∧
      ((∀ w d' : Nat, s.workers[w]? ≠ some (.waiting d')) →
        (∀ w, step s (.selectSend c w) = none) ∧
        (s.taskQ.closed = false → step s (.sendOnClosed c) = none) ∧
        (s.crashed = false →
          ∃ s', run s [.advance (d - s.now), .selectTimeout c] = some s' ∧
            s'.workers = s.workers ++ [.start]))) ∧
    (pc = .send →
      s.log.countP (isSpawnBy c) = 1 ∧
      step s (.selectTimeout c) = none ∧
      step s (.blockingSendBuffered c) = none ∧
      ∀ w s', step s (.blockingSend c w) = some s' →
        (∃ d', s.workers[w]? = some (.waiting d')) ∧
        s'.workers = s.workers.set w (.executing c) ∧
        s'.calls[c]? = some ⟨.execute fn, .returned⟩ ∧
        s'.log.countP (isSpawnBy c) = 1) := by
  have hcall := callInv_reachable h c
  obtain ⟨hcap, hbuf⟩ := chanInv_reachable h
  rw [hc] at hcall
  refine ⟨?_, ?_, ?_, ?_⟩
  · cases pc <;> simp only [CallOK] at hcall <;> omega
  · intro hpc
    subst hpc
    simp only [CallOK] at hcall
    omega
  · intro d hpc
    subst hpc
    simp only [CallOK] at hcall
    obtain ⟨-, -, hsp, -, -⟩ := hcall
    refine ⟨hsp, ?_, ?_, ?_, ?_⟩
    · intro w s' hs
      have hcr := not_crashed_of_step hs
      cases hq : s.workers[w]? with
      | none => simp [step, hc, hq, hcr] at hs
      | some wpc =>
        cases wpc <;> simp [step, hc, hq, hcr] at hs
        obtain ⟨-, hs⟩ := hs
        subst hs
        refine ⟨⟨_, rfl⟩, rfl, ?_, ?_⟩
        · simp only [State.sent, State.receive]
          rw [getElem?_set_of_some _ _ hc]
          simp
        · simp [State.sent, State.receive, List.countP_append, List.countP_cons,
            isSpawnBy, hsp]
    · intro s' hs
      have hcr := not_crashed_of_step hs
      simp [step, hc, hcr] at hs
      obtain ⟨hd, hs⟩ := hs
      subst hs
      refine ⟨hd, rfl, ?_, ?_⟩
      · simp only []
        rw [getElem?_set_of_some _ _ hc]
        simp
      · simp [List.countP_append, List.countP_cons, isSpawnBy, hsp]
    · simp [step, hc, hcap]
    · intro hnw
      refine ⟨?_, ?_, ?_⟩
      · intro w
        cases hq : s.workers[w]? with
        | none => simp [step, hc, hq]
        | some wpc =>
          cases wpc <;> first | exact absurd hq (hnw _ _) | simp [step, hc, hq]
      · intro hcl
        simp [step, hc, hcl]
      · intro hcr
        simp [run, step, hcr, hc]
        exact ⟨_, ⟨by omega, rfl⟩, rfl⟩
  · intro hpc
    subst hpc
    simp only [CallOK] at hcall
    obtain ⟨-, -, hsp, -, -⟩ := hcall
    refine ⟨hsp, by simp [step, hc], by simp [step, hc, hcap], ?_⟩
    intro w s' hs
    have hcr := not_crashed_of_step hs
    cases hq : s.workers[w]? with
    | none => simp [step, hc, hq, hcr] at hs
    | some wpc =>
      cases wpc <;> simp [step, hc, hq, hcr] at hs
      obtain ⟨-, hs⟩ := hs
      subst hs
      refine ⟨⟨_, rfl⟩, rfl, ?_, ?_⟩
      · simp only [State.sent, State.receive]
        rw [getElem?_set_of_some _ _ hc]
        simp
      · simp [State.sent, State.receive, List.countP_append, List.countP_cons,
          isSpawnBy, hsp]

theorem busyPool_none_waiting :
    ∀ w d' : Nat, busyPool.workers[w]? ≠ some (.waiting d') := by
  intro w d' hq
  have hm := List.getElem?_mem hq
  simp [busyPool] at hm

/-- C6 (counterexample): in `busyPool` the pool is open, no worker is waiting and call 1 is in
its `select`; the busy worker then finishes its task and takes the task of call 1 at line 58,
so the call returns without having spawned a worker. -/
theorem C6_busy_worker_takes_task :
    busyPool.calls[1]? = some ⟨.execute 2, .select 2000000⟩ ∧
    busyPool.taskQ.closed = false ∧
    busyPool.workers = [.executing 0] ∧
    (run busyPool [.taskReturn 0, .selectSend 1 0]).map
        (fun s => (s.calls[1]?, s.workers, s.log.countP (isSpawnBy 1)))
      = some (some ⟨.execute 2, .returned⟩, [.executing 1], 0) ∧
    ¬ SpawnsWhenNoneWaiting := by
  refine ⟨rfl, rfl, rfl, by decide, ?_⟩
  intro hall
  have h1 := hall busyPool busyPool_reachable 1 2 2000000 rfl rfl busyPool_none_waiting
    [.taskReturn 0, .selectSend 1 0]
    { busyPool with
      workers := [.executing 1]
      calls := [⟨.execute 1, .returned⟩, ⟨.execute 2, .returned⟩]
      log := busyPool.log ++ [.ret 0 0, .send 1 false, .recv 0 1, .invoke (.worker 0) 1] }
    (by decide) rfl
  exact absurd h1 (by decide)

/-- C6 (amended): an `Execute(fn)` entered at time `s.now` arms its timer with the
`RequestTimeout` read at entry.  It spawns at most one worker: none when the send of line 58
succeeds, exactly one when the timeout branch is taken, which is possible exactly once the
bound has elapsed, after which the same task is sent at line 66, which has no timer.  The
channel buffers nothing, so as long as the pool is open and no worker is waiting, the only
step that moves the call out of its `select` is the timeout branch, which spawns a worker. -/
theorem C6_execute_spawn_rule (s : State) (h : Reachable s) (fn : Task) (s1 : State)
    (h1 : step s (.callExecute fn) = some s1) (es : List Event) (s2 : State)
    (h2 : run s1 es = some s2) (c : Nat) (hc : c = s.calls.length)
    (D : Nat) (hD : D = s.now + s.RequestTimeout.toNat) :
    s1.calls[c]? = some ⟨.execute fn, .select D⟩ ∧
    (s2.calls[c]? = some ⟨.execute fn, .select D⟩ ∨ s2.calls[c]? = some ⟨.execute fn, .send⟩ ∨
      s2.calls[c]? = some ⟨.execute fn, .returned⟩ ∨
      s2.calls[c]? = some ⟨.execute fn, .panicked⟩) ∧
    s2.log.countP (isSpawnBy c) ≤ 1 ∧
    (s2.calls[c]? = some ⟨.execute fn, .returned⟩ →
      (s2.log.count (.send c false) = 1 ∧ s2.log.count (.send c true) = 0 ∧
        s2.log.countP (isSpawnBy c) = 0) ∨
      (s2.log.count (.send c false) = 0 ∧ s2.log.count (.send c true) = 1 ∧
        s2.log.countP (isSpawnBy c) = 1)) ∧
    (s2.calls[c]? = some ⟨.execute fn, .select D⟩ →
      s2.log.countP (isSpawnBy c) = 0 ∧
      step s2 (.selectTimeout c)
        = (if s2.crashed = false ∧ D ≤ s2.now then
            some { s2 with
              calls := s2.calls.set c ⟨.execute fn, .send⟩
              workers := s2.workers ++ [.start]
              log := s2.log ++ [.spawn c s2.workers.length] }
          else none) ∧
      (∀ w s3, step s2 (.selectSend c w) = some s3 →
        (∃ d', s2.workers[w]? = some (.waiting d')) ∧
        s3.workers = s2.workers.set w (.executing c) ∧
        s3.calls[c]? = some ⟨.execute fn, .returned⟩ ∧
        s3.log.countP (isSpawnBy c) = 0) ∧
      step s2 (.selectSendBuffered c) = none ∧
      (s2.taskQ.closed = false → (∀ w d' : Nat, s2.workers[w]? ≠ some (.waiting d')) →
        ∀ e s3, step s2 e = some s3 →
          s3.calls[c]? = some ⟨.execute fn, .select D⟩ ∨
          (e = .selectTimeout c ∧ D ≤ s2.now ∧ s3.workers = s2.workers ++ [.start] ∧
            s3.calls[c]? = some ⟨.execute fn, .send⟩ ∧
            s3.log.countP (isSpawnBy c) = 1))) ∧
    (s2.calls[c]? = some ⟨.execute fn, .send⟩ →
      s2.log.countP (isSpawnBy c) = 1 ∧
      step s2 (.selectTimeout c) = none ∧
      step s2 (.blockingSendBuffered c) = none ∧
      ∀ w s3, step s2 (.blockingSend c w) = some s3 →
        (∃ d', s2.workers[w]? = some (.waiting d')) ∧
        s3.workers = s2.workers.set w (.executing c) ∧
        s3.calls[c]? = some ⟨.execute fn, .returned⟩ ∧
        s3.log.countP (isSpawnBy c) = 1) := by
  have hcr := not_crashed_of_step h1
  rw [step_callExecute s fn hcr] at h1
  cases h1
  subst hc hD
  have hq1 : ({ s with calls := s.calls ++
      [⟨.execute fn, .select (timerAfter s.now s.RequestTimeout)⟩] } : State).calls[s.calls.length]?
      = some ⟨.execute fn, .select (s.now + s.RequestTimeout.toNat)⟩ := by
    simp [timerAfter]
  have hp2 := @run_execPhase s.calls.length fn (s.now + s.RequestTimeout.toNat) es _ s2
    (by rw [hq1]; simp [execPhase]) h2
  have hreach2 : Reachable s2 :=
    reachable_run es (reachable_run [.callExecute fn] h
      (by simp [run, step_callExecute s fn hcr])) h2
  have hchan := chanInv_reachable hreach2
  have hpc : s2.calls[s.calls.length]?
        = some ⟨.execute fn, .select (s.now + s.RequestTimeout.toNat)⟩ ∨
      s2.calls[s.calls.length]? = some ⟨.execute fn, .send⟩ ∨
      s2.calls[s.calls.length]? = some ⟨.execute fn, .returned⟩ ∨
      s2.calls[s.calls.length]? = some ⟨.execute fn, .panicked⟩ := by
    cases hq : s2.calls[s.calls.length]? with
    | none => simp [hq, execPhase] at hp2
    | some cl =>
      obtain ⟨op, pc⟩ := cl
      cases op <;> cases pc <;> simp [hq, execPhase] at hp2 <;> simp [hp2]
  refine ⟨hq1, hpc, ?_, ?_, ?_, ?_⟩
  · rcases hpc with hq | hq | hq | hq <;>
      exact (execute_call_facts s2 hreach2 _ fn _ hq).1
  · intro hq
    exact (execute_call_facts s2 hreach2 _ fn _ hq).2.1 rfl
  · intro hq
    obtain ⟨hsp, hsend, htime, hbuf, -⟩ :=
      (execute_call_facts s2 hreach2 _ fn _ hq).2.2.1 _ rfl
    refine ⟨hsp, ?_, hsend, hbuf, ?_⟩
    · cases hcr2 : s2.crashed with
      | true => simp [step, hcr2]
      | false =>
        by_cases hd : s.now + s.RequestTimeout.toNat ≤ s2.now
        · simp [step, hcr2, hq, hd]
        · simp [step, hcr2, hq, hd]
    · intro hopen hnw e s3 hs
      rcases select_step hchan hq hopen hnw hs with hstay | ⟨he, hd, hw, hcq, hlog⟩
      · exact Or.inl hstay
      · refine Or.inr ⟨he, hd, hw, hcq, ?_⟩
        rw [hlog]
        simp [List.countP_append, List.countP_cons, isSpawnBy, hsp]
  · intro hq
    exact (execute_call_facts s2 hreach2 _ fn _ hq).2.2.2 rfl

/-- C6 (amended) at `busyPool`: call 1 was entered at time 1000000 with `RequestTimeout` 1 ms,
so its timer fires at 2000000; it is in its `select` and has spawned nothing. -/
theorem C6_execute_spawn_rule_witness :
    run New [.callExecute 1, .advance 1000000, .selectTimeout 0, .workerStart 0,
      .blockingSend 0 0] = some
        { busyPool with calls := [⟨.execute 1, .returned⟩] } ∧
    step { busyPool with calls := [⟨.execute 1, .returned⟩] } (.callExecute 2) = some busyPool ∧
    busyPool.calls[1]? = some ⟨.execute 2, .select 2000000⟩ ∧
    busyPool.log.countP (isSpawnBy 1) ≤ 1 :=
  ⟨by decide, by decide, rfl,
    (C6_execute_spawn_rule { busyPool with calls := [⟨.execute 1, .returned⟩] }
      ⟨[.callExecute 1, .advance 1000000, .selectTimeout 0, .workerStart 0, .blockingSend 0 0],
        by decide⟩
      2 busyPool (by decide) [] busyPool rfl 1 rfl 2000000 (by decide)).2.2.1⟩

end Gopool
